import Mathlib

/-!
Verification of the gas-usage calculator (src/src/App.tsx).

The program is a React single-page form.  Its logic consists of:
  - formatGasType: parses a raw gas-type label into a display name and a
    component list (three rules tried in order);
  - cylinderData: a fixed 10-entry catalog built by applying formatGasType
    to each raw label and attaching timing and flow constants;
  - calculateUsage: validates the four form inputs and computes
    ((bumpTimeMin * tests * flowRate) + (calTimeMin * calibrations * flowRate))
      * instrumentCount, rounded to two decimals.

Embedding choices:
  - JavaScript strings are Lean String / List Char; the JS string methods
    used by the source (includes, split, trim, replace of a char class,
    the regex match, parseInt) are modeled below on the ASCII fragment
    relevant to the program (the Unicode-only whitespace code points and
    surrogate issues are out of scope).
  - JS numbers are modeled as exact rationals.  Every catalog constant and
    the formula are exact in this model; toFixed-style rounding is modeled
    on rationals by roundTwo.  IEEE-754 double rounding is not modeled.
  - Code that throws returns Option; none marks the throwing path.
-/

/-- ASCII fragment of the JS whitespace class (used by trim, the regex
class backslash-s, and parseInt input stripping). -/
def jsWS (c : Char) : Bool :=
  c == ' ' || c == '\t' || c == '\n' || c == '\x0b' || c == '\x0c' || c == '\r'

/-- The JS regex dot: any character except a line terminator. -/
def jsDot (c : Char) : Bool := !(c == '\n' || c == '\r')

/-- Drop leading JS whitespace. -/
def ltrim (l : List Char) : List Char := l.dropWhile jsWS

/-- Drop trailing JS whitespace. -/
def rtrim (l : List Char) : List Char := l.rdropWhile jsWS

/-- Model of String.prototype.trim (ASCII whitespace fragment). -/
def jsTrim (l : List Char) : List Char := rtrim (ltrim l)

/-- String-level wrapper for jsTrim. -/
def jsTrimStr (s : String) : String := String.mk (jsTrim s.data)

/-- Model of String.prototype.includes: does the pattern occur as a
contiguous subsequence?  (Faithful for any needle; the program only uses
the non-empty needle " in 1".) -/
def containsSeq (sep : List Char) : List Char → Bool
  | [] => sep.isPrefixOf []
  | l@(_ :: rest) => sep.isPrefixOf l || containsSeq sep rest

/-- String-level wrapper for containsSeq, modeling s.includes(sub). -/
def jsIncludes (s sub : String) : Bool := containsSeq sub.data s.data

/-- Worker for jsSplit.  The skip counter walks over the remainder of a
separator occurrence that has already produced a boundary, so occurrences
never overlap, exactly as in String.prototype.split. -/
def jsSplitGo (sep : List Char) : Nat → List Char → List (List Char)
  | _, [] => [[]]
  | 0, c :: rest =>
    if sep ≠ [] ∧ sep.isPrefixOf (c :: rest) then
      [] :: jsSplitGo sep (sep.length - 1) rest
    else
      match jsSplitGo sep 0 rest with
      | [] => [[c]]
      | p :: ps => (c :: p) :: ps
  | skip + 1, _ :: rest => jsSplitGo sep skip rest

/-- Model of String.prototype.split with a non-empty string separator:
leftmost non-overlapping occurrences of sep become the boundaries. -/
def jsSplit (sep l : List Char) : List (List Char) := jsSplitGo sep 0 l

/-- The lazy group (.*?) of the label regex followed by the literal close
parenthesis: scan to the first close parenthesis, requiring every consumed
character to match the regex dot. -/
def grp2 : List Char → Option (List Char)
  | [] => none
  | c :: rest =>
    if c = ')' then some []
    else if jsDot c then (grp2 rest).map (fun g => c :: g)
    else none

/-- After group 1 of the label regex: greedy backslash-s-star, then the
literal open parenthesis, then group 2.  Greediness with backtracking is
deterministic here because an open parenthesis is not whitespace. -/
def afterG1 (l : List Char) : Option (List Char) :=
  match l.dropWhile jsWS with
  | [] => none
  | c :: rest => if c = '(' then grp2 rest else none

/-- Attempt the label regex with group 1 starting at the current position,
growing the lazy group 1 one dot-matching character at a time. -/
def tryAt : List Char → List Char → Option (List Char × List Char)
  | acc, [] =>
    (afterG1 []).map (fun g2 => (acc.reverse, g2))
  | acc, c :: rest =>
    match afterG1 (c :: rest) with
    | some g2 => some (acc.reverse, g2)
    | none => if jsDot c then tryAt (c :: acc) rest else none

/-- Model of s.match(the label regex): try each start position from the
left, returning groups 1 and 2 of the first successful attempt. -/
def searchRegex : List Char → Option (List Char × List Char)
  | [] => tryAt [] []
  | c :: rest =>
    match tryAt [] (c :: rest) with
    | some r => some r
    | none => searchRegex rest

/-- Value of a character as a digit in the given base, as parseInt reads
digits (0-9, then letters case-insensitively from value 10 up). -/
def digitValue (base : Nat) (c : Char) : Option Nat :=
  let v : Option Nat :=
    if '0' ≤ c ∧ c ≤ '9' then some (c.toNat - '0'.toNat)
    else if 'a' ≤ c ∧ c ≤ 'z' then some (c.toNat - 'a'.toNat + 10)
    else if 'A' ≤ c ∧ c ≤ 'Z' then some (c.toNat - 'A'.toNat + 10)
    else none
  match v with
  | some d => if d < base then some d else none
  | none => none

/-- Longest digit run in the given base; none when the run is empty, which
is the NaN case of parseInt. -/
def parseDigits (base : Nat) (l : List Char) : Option Nat :=
  let ds := l.takeWhile (fun c => (digitValue base c).isSome)
  if ds = [] then none
  else some (ds.foldl (fun acc c => acc * base + ((digitValue base c).getD 0)) 0)

/-- Unsigned part of parseInt with no radix argument: a 0x or 0X prefix
selects base 16, otherwise base 10. -/
def parseUnsigned : List Char → Option Nat
  | '0' :: 'x' :: r => parseDigits 16 r
  | '0' :: 'X' :: r => parseDigits 16 r
  | l => parseDigits 10 l

/-- Model of the global parseInt with no radix argument: strip leading
whitespace, read an optional sign, then the longest digit prefix; none is
the NaN result.  (Values are exact integers; the double precision loss of
JS on integers beyond 2^53 is not modeled, and the inputs of interest are
small.) -/
def jsParseInt (s : String) : Option Int :=
  match s.data.dropWhile jsWS with
  | '-' :: r => (parseUnsigned r).map (fun n => -(n : Int))
  | '+' :: r => (parseUnsigned r).map (fun n => (n : Int))
  | l => (parseUnsigned l).map (fun n => (n : Int))

/-- Result of formatGasType: a display name and a component list. -/
structure GasFormat where
  displayName : String
  components : List String
deriving DecidableEq, Repr

/-- The label parser of the source (called parseGasLabel in the spec).
Rule 1: labels containing " in 1" are split on " in 1 "; the destructured
first two parts become count and rest.  When the split yields a single
part (the label contains " in 1" but no " in 1 "), the source evaluates
undefined.replace and throws a TypeError; that path is none here.
Rule 2: the first match of the name-parenthesis regex.
Rule 3: fallback to the label itself. -/
def formatGasType (gasType : String) : Option GasFormat :=
  if jsIncludes gasType " in 1" = true then
    match jsSplit (" in 1 ".data) gasType.data with
    | count :: rest :: _ =>
      some { displayName := String.mk count ++ "-in-1 Gas Mixture",
             components :=
               (jsSplit [','] (rest.filter (fun c => !(c == '(' || c == ')')))).map
                 (fun p => String.mk (jsTrim p)) }
    | _ => none
  else
    match searchRegex gasType.data with
    | some (g1, g2) =>
      some { displayName := String.mk (jsTrim g1), components := [String.mk (jsTrim g2)] }
    | none => some { displayName := gasType, components := [gasType] }

/-- One catalog record (interface CylinderData of the source). -/
structure CylinderData where
  gasType : String
  displayName : String
  components : List String
  bumpTimeMin : ℚ
  calTimeMin : ℚ
  flowRate : ℚ
deriving DecidableEq, Repr

/-- One catalog entry: the raw label, the spread of formatGasType on it,
and the three constants.  The none fallback is unreachable for the ten
catalog labels (in JS a throwing spread would abort module evaluation). -/
def mkCylinder (label : String) (bump cal flow : ℚ) : CylinderData :=
  match formatGasType label with
  | some f => ⟨label, f.displayName, f.components, bump, cal, flow⟩
  | none => ⟨label, label, [], bump, cal, flow⟩

/-- The catalog constant cylinderData of the source. -/
def cylinderData : List CylinderData :=
  [ mkCylinder "3 in 1 (O2,LEL,CO)" 0.5 2 0.5,
    mkCylinder "3 in 1 (O2,LEL,H2S)" 0.5 2 0.5,
    mkCylinder "4 in 1 (O2,LEL,CO,H2S)" 0.4 1.5 0.5,
    mkCylinder "4 in 1 (O2,LEL,CO,CO2)" 0.5 2.15 0.5,
    mkCylinder "5 in 1 (O2,LEL,CO,H2S,CO2)" 0.5 2.15 0.5,
    mkCylinder "5 in 1 (O2,LEL,CO,H2S,SO2)" 0.75 2.5 0.5,
    mkCylinder "Ammonia (NH3)" 1 3 0.5,
    mkCylinder "Carbon Dioxide (CO2)" 0.5 1.5 0.5,
    mkCylinder "Carbon Monoxide (CO)" 0.4 1.5 0.5,
    mkCylinder "Chlorine (Cl2)" 3 6 0.5 ]

/-- Outcome of one calculateUsage invocation. -/
inductive CalcResult where
  | missingField
  | unknownGasType
  | invalidNumber
  | ok (liters : ℚ)
deriving DecidableEq, Repr

/-- Model of parseFloat(x.toFixed(2)) on exact rationals: the nearest
multiple of one hundredth, ties picking the larger magnitude, per the
toFixed specification (choose integer n with n / 100 - x closest to zero,
ties to the larger n, on the absolute value with the sign re-attached). -/
def roundTwo (x : ℚ) : ℚ :=
  if x < 0 then -((⌊(-x) * 100 + 1/2⌋ : ℚ) / 100)
  else ((⌊x * 100 + 1/2⌋ : ℚ) / 100)

/-- The calculateUsage handler as a pure function of the four form fields
(the spec's Usage Calculator contract).  Empty-string checks model the JS
falsiness tests; find models Array.prototype.find; the three parses and
the combined isNaN test are the match on the parse results. -/
def calculateUsage (selectedGas testsPerMonth calibrationsPerMonth instruments : String) :
    CalcResult :=
  if selectedGas = "" ∨ testsPerMonth = "" ∨ calibrationsPerMonth = "" ∨ instruments = "" then
    .missingField
  else
    match cylinderData.find? (fun c => c.gasType == selectedGas) with
    | none => .unknownGasType
    | some cylinder =>
      match jsParseInt testsPerMonth, jsParseInt calibrationsPerMonth,
            jsParseInt instruments with
      | some tests, some calibrations, some instrumentCount =>
        .ok (roundTwo
          ((cylinder.bumpTimeMin * tests * cylinder.flowRate +
            cylinder.calTimeMin * calibrations * cylinder.flowRate) * instrumentCount))
      | _, _, _ => .invalidNumber

/-- The two React state cells the handler touches. -/
structure AppState where
  result : Option ℚ
  error : String
deriving DecidableEq, Repr

/-- The user-facing message of each outcome. -/
def errorMessage : CalcResult → String
  | .missingField => "Please fill in all fields"
  | .unknownGasType => "Invalid gas type selected"
  | .invalidNumber => "Please enter valid numbers"
  | .ok _ => ""

/-- The calculateUsage click handler as a state transformer, transcribed
from the source: setError of the empty string first, then each early
return sets only error, and the success path sets only result. -/
def runCalculate (g t c i : String) (s : AppState) : AppState :=
  let s0 : AppState := { s with error := "" }
  if g = "" ∨ t = "" ∨ c = "" ∨ i = "" then
    { s0 with error := "Please fill in all fields" }
  else
    match cylinderData.find? (fun cd => cd.gasType == g) with
    | none => { s0 with error := "Invalid gas type selected" }
    | some cyl =>
      match jsParseInt t, jsParseInt c, jsParseInt i with
      | some tv, some cv, some iv =>
        { s0 with result := some (roundTwo
            ((cyl.bumpTimeMin * tv * cyl.flowRate +
              cyl.calTimeMin * cv * cyl.flowRate) * iv)) }
      | _, _, _ => { s0 with error := "Please enter valid numbers" }

/-! ## Evaluation helpers -/

/-- The catalog evaluated to explicit records (the label parsing is pure
string computation, so this is definitional). -/
lemma cylinderData_eval : cylinderData =
    [ ⟨"3 in 1 (O2,LEL,CO)", "3-in-1 Gas Mixture", ["O2", "LEL", "CO"], 0.5, 2, 0.5⟩,
      ⟨"3 in 1 (O2,LEL,H2S)", "3-in-1 Gas Mixture", ["O2", "LEL", "H2S"], 0.5, 2, 0.5⟩,
      ⟨"4 in 1 (O2,LEL,CO,H2S)", "4-in-1 Gas Mixture", ["O2", "LEL", "CO", "H2S"], 0.4, 1.5, 0.5⟩,
      ⟨"4 in 1 (O2,LEL,CO,CO2)", "4-in-1 Gas Mixture", ["O2", "LEL", "CO", "CO2"], 0.5, 2.15, 0.5⟩,
      ⟨"5 in 1 (O2,LEL,CO,H2S,CO2)", "5-in-1 Gas Mixture",
        ["O2", "LEL", "CO", "H2S", "CO2"], 0.5, 2.15, 0.5⟩,
      ⟨"5 in 1 (O2,LEL,CO,H2S,SO2)", "5-in-1 Gas Mixture",
        ["O2", "LEL", "CO", "H2S", "SO2"], 0.75, 2.5, 0.5⟩,
      ⟨"Ammonia (NH3)", "Ammonia", ["NH3"], 1, 3, 0.5⟩,
      ⟨"Carbon Dioxide (CO2)", "Carbon Dioxide", ["CO2"], 0.5, 1.5, 0.5⟩,
      ⟨"Carbon Monoxide (CO)", "Carbon Monoxide", ["CO"], 0.4, 1.5, 0.5⟩,
      ⟨"Chlorine (Cl2)", "Chlorine", ["Cl2"], 3, 6, 0.5⟩ ] := by rfl

/-- Evaluate roundTwo at a nonnegative rational whose scaled floor is
known. -/
lemma roundTwo_eval (x : ℚ) (n : ℤ) (h0 : 0 ≤ x)
    (h1 : (n : ℚ) ≤ x * 100 + 1/2) (h2 : x * 100 + 1/2 < n + 1) :
    roundTwo x = (n : ℚ) / 100 := by
  unfold roundTwo
  rw [if_neg (not_lt.mpr h0), Int.floor_eq_iff.mpr ⟨h1, h2⟩]

lemma calculateUsage_missing (g t c i : String)
    (h : g = "" ∨ t = "" ∨ c = "" ∨ i = "") :
    calculateUsage g t c i = .missingField := by
  unfold calculateUsage
  rw [if_pos h]

lemma calculateUsage_unknown (g t c i : String)
    (hne : ¬(g = "" ∨ t = "" ∨ c = "" ∨ i = ""))
    (hf : cylinderData.find? (fun r => r.gasType == g) = none) :
    calculateUsage g t c i = .unknownGasType := by
  unfold calculateUsage
  rw [if_neg hne, hf]

lemma calculateUsage_invalid (g t c i : String) (cyl : CylinderData)
    (hne : ¬(g = "" ∨ t = "" ∨ c = "" ∨ i = ""))
    (hf : cylinderData.find? (fun r => r.gasType == g) = some cyl)
    (hp : jsParseInt t = none ∨ jsParseInt c = none ∨ jsParseInt i = none) :
    calculateUsage g t c i = .invalidNumber := by
  unfold calculateUsage
  rw [if_neg hne, hf]
  rcases ht : jsParseInt t with _ | tv <;> rcases hc : jsParseInt c with _ | cv <;>
    rcases hi : jsParseInt i with _ | iv <;> simp_all

lemma calculateUsage_ok (g t c i : String) (cyl : CylinderData) (tv cv iv : ℤ)
    (hne : ¬(g = "" ∨ t = "" ∨ c = "" ∨ i = ""))
    (hf : cylinderData.find? (fun r => r.gasType == g) = some cyl)
    (ht : jsParseInt t = some tv) (hc : jsParseInt c = some cv)
    (hi : jsParseInt i = some iv) :
    calculateUsage g t c i =
      .ok (roundTwo ((cyl.bumpTimeMin * tv * cyl.flowRate +
                      cyl.calTimeMin * cv * cyl.flowRate) * iv)) := by
  unfold calculateUsage
  rw [if_neg hne, hf, ht, hc, hi]

/-! ## Lemmas about jsSplit and containsSeq -/

lemma jsSplitGo_ne_nil (sep : List Char) :
    ∀ (skip : Nat) (l : List Char), jsSplitGo sep skip l ≠ [] := by
  intro skip l
  induction l generalizing skip with
  | nil => simp [jsSplitGo]
  | cons c rest ih =>
    cases skip with
    | zero =>
      rw [jsSplitGo]
      split
      · simp
      · cases h : jsSplitGo sep 0 rest <;> simp
    | succ k => rw [jsSplitGo]; exact ih k

lemma isPrefixOf_of_append_isPrefixOf (s t : List Char) :
    ∀ l, (s ++ t).isPrefixOf l = true → s.isPrefixOf l = true := by
  induction s with
  | nil => intro l _; cases l <;> rfl
  | cons a s ih =>
    intro l h
    cases l with
    | nil => simp [List.isPrefixOf] at h
    | cons b l =>
      simp only [List.cons_append, List.isPrefixOf, Bool.and_eq_true] at h ⊢
      exact ⟨h.1, ih l h.2⟩

lemma containsSeq_of_append (s t : List Char) :
    ∀ l, containsSeq (s ++ t) l = true → containsSeq s l = true := by
  intro l
  induction l with
  | nil =>
    intro h
    simp only [containsSeq] at h ⊢
    exact isPrefixOf_of_append_isPrefixOf s t [] h
  | cons c rest ih =>
    intro h
    simp only [containsSeq, Bool.or_eq_true] at h ⊢
    rcases h with h | h
    · exact Or.inl (isPrefixOf_of_append_isPrefixOf s t (c :: rest) h)
    · exact Or.inr (ih h)

lemma containsSeq_iff_two_le (sep : List Char) (hs : sep ≠ []) :
    ∀ l, (containsSeq sep l = true ↔ 2 ≤ (jsSplitGo sep 0 l).length) := by
  intro l
  induction l with
  | nil =>
    cases sep with
    | nil => exact absurd rfl hs
    | cons a s => simp [containsSeq, List.isPrefixOf, jsSplitGo]
  | cons c rest ih =>
    by_cases hp : sep.isPrefixOf (c :: rest) = true
    · have h2 : 1 ≤ (jsSplitGo sep (sep.length - 1) rest).length :=
        List.length_pos.mpr (jsSplitGo_ne_nil sep _ rest)
      rw [jsSplitGo, if_pos ⟨hs, hp⟩]
      simp only [containsSeq, hp, Bool.true_or, List.length_cons, true_iff]
      exact Nat.succ_le_succ h2
    · obtain ⟨p, ps, hrest⟩ := List.exists_cons_of_ne_nil (jsSplitGo_ne_nil sep 0 rest)
      rw [jsSplitGo, if_neg (by simp [hp]), hrest]
      simp only [containsSeq, Bool.or_eq_true, hp, false_or, List.length_cons]
      rw [ih, hrest]
      simp

lemma jsSplitGo_singleton_length (ch : Char) :
    ∀ l : List Char, (jsSplitGo [ch] 0 l).length = l.count ch + 1 := by
  intro l
  induction l with
  | nil => simp [jsSplitGo]
  | cons c rest ih =>
    by_cases hc : ch = c
    · subst hc
      rw [jsSplitGo, if_pos ⟨by simp, by simp [List.isPrefixOf]⟩]
      have hskip : [ch].length - 1 = 0 := rfl
      rw [hskip, List.length_cons, ih, List.count_cons_self]
    · have hpre : ([ch].isPrefixOf (c :: rest)) = false := by
        simp [List.isPrefixOf, hc]
      obtain ⟨p, ps, hrest⟩ := List.exists_cons_of_ne_nil (jsSplitGo_ne_nil [ch] 0 rest)
      rw [jsSplitGo, if_neg (by simp [hpre]), hrest]
      simp only [List.length_cons]
      rw [← List.length_cons p ps, ← hrest, ih, List.count_cons_of_ne hc]

lemma mem_of_mem_jsSplitGo (sep : List Char) :
    ∀ (l : List Char) (skip : Nat) (part : List Char) (a : Char),
      part ∈ jsSplitGo sep skip l → a ∈ part → a ∈ l := by
  intro l
  induction l with
  | nil =>
    intro skip part a hp ha
    simp [jsSplitGo] at hp
    subst hp
    exact absurd ha (List.not_mem_nil a)
  | cons c rest ih =>
    intro skip part a hp ha
    cases skip with
    | succ k =>
      rw [jsSplitGo] at hp
      exact List.mem_cons_of_mem c (ih k part a hp ha)
    | zero =>
      rw [jsSplitGo] at hp
      split at hp
      · rcases List.mem_cons.mp hp with h | h
        · subst h; exact absurd ha (List.not_mem_nil a)
        · exact List.mem_cons_of_mem c (ih _ part a h ha)
      · obtain ⟨p, ps, hrest⟩ := List.exists_cons_of_ne_nil (jsSplitGo_ne_nil sep 0 rest)
        rw [hrest] at hp
        rcases List.mem_cons.mp hp with h | h
        · subst h
          rcases List.mem_cons.mp ha with h | h
          · exact h ▸ List.mem_cons_self c rest
          · exact List.mem_cons_of_mem c
              (ih 0 p a (hrest ▸ List.mem_cons_self p ps) h)
        · exact List.mem_cons_of_mem c
            (ih 0 part a (hrest ▸ List.mem_cons_of_mem p h) ha)

lemma count_filter_of_pos (p : Char → Bool) (c : Char) (hp : p c = true) :
    ∀ l : List Char, (l.filter p).count c = l.count c := by
  intro l
  induction l with
  | nil => rfl
  | cons a rest ih =>
    by_cases ha : p a = true
    · rw [List.filter_cons_of_pos ha]
      by_cases hac : c = a
      · subst hac; rw [List.count_cons_self, List.count_cons_self, ih]
      · rw [List.count_cons_of_ne hac, List.count_cons_of_ne hac, ih]
    · rw [List.filter_cons_of_neg (by simpa using ha)]
      have hac : c ≠ a := fun h => ha (h ▸ hp)
      rw [List.count_cons_of_ne hac, ih]

/-! ## Lemmas about the trim model -/

lemma rtrim_eq_nil_of_all (l : List Char) (h : ∀ x ∈ l, jsWS x = true) :
    rtrim l = [] :=
  List.rdropWhile_eq_nil_iff.mpr h

lemma dropWhile_head_false (p : Char → Bool) :
    ∀ (l : List Char) (c : Char) (t : List Char), l.dropWhile p = c :: t → p c = false := by
  intro l
  induction l with
  | nil => intro c t h; simp at h
  | cons a rest ih =>
    intro c t h
    by_cases hpa : p a = true
    · rw [List.dropWhile_cons_of_pos hpa] at h
      exact ih c t h
    · rw [List.dropWhile_cons_of_neg hpa] at h
      cases h
      simpa using hpa

lemma rtrim_cons_eq (c : Char) (l : List Char)
    (h : ¬ ∀ x ∈ c :: l, jsWS x = true) : rtrim (c :: l) = c :: rtrim l := by
  by_cases h2 : ∀ x ∈ l, jsWS x = true
  · have hc : jsWS c = false := by
      by_contra hc
      exact h (fun x hx => by
        rcases List.mem_cons.mp hx with h3 | h3
        · subst h3; simpa using hc
        · exact h2 x h3)
    unfold rtrim List.rdropWhile
    rw [List.reverse_cons, List.dropWhile_append]
    rw [List.dropWhile_eq_nil_iff.mpr (by simpa using h2)]
    simp [List.dropWhile, hc, rtrim_eq_nil_of_all l h2]
  · unfold rtrim List.rdropWhile
    rw [List.reverse_cons, List.dropWhile_append]
    have hne : l.reverse.dropWhile jsWS ≠ [] := by
      rw [Ne, List.dropWhile_eq_nil_iff]
      simpa using h2
    rw [if_neg (by simpa [List.isEmpty_iff] using hne)]
    simp

lemma ltrim_rtrim_comm : ∀ l : List Char, ltrim (rtrim l) = rtrim (ltrim l) := by
  intro l
  induction l with
  | nil => rfl
  | cons c t ih =>
    by_cases hc : jsWS c = true
    · by_cases hall : ∀ x ∈ t, jsWS x = true
      · rw [rtrim_eq_nil_of_all (c :: t) (by
          intro x hx
          rcases List.mem_cons.mp hx with h | h
          · exact h ▸ hc
          · exact hall x h)]
        unfold ltrim
        rw [List.dropWhile_cons_of_pos hc, List.dropWhile_eq_nil_iff.mpr hall]
        rfl
      · rw [rtrim_cons_eq c t (by
          intro hcontra
          exact hall (fun x hx => hcontra x (List.mem_cons_of_mem c hx)))]
        unfold ltrim
        rw [List.dropWhile_cons_of_pos hc, List.dropWhile_cons_of_pos hc]
        exact ih
    · have hnall : ¬ ∀ x ∈ c :: t, jsWS x = true := by
        intro hcontra
        exact hc (hcontra c (List.mem_cons_self c t))
      rw [rtrim_cons_eq c t hnall]
      unfold ltrim
      rw [List.dropWhile_cons_of_neg (by simpa using hc),
        List.dropWhile_cons_of_neg (by simpa using hc)]
      exact (rtrim_cons_eq c t hnall).symm

lemma ltrim_idem (l : List Char) : ltrim (ltrim l) = ltrim l :=
  List.dropWhile_idempotent jsWS l

lemma rtrim_idem (l : List Char) : rtrim (rtrim l) = rtrim l :=
  List.rdropWhile_idempotent jsWS l

lemma jsTrim_rtrim (l : List Char) : jsTrim (rtrim l) = jsTrim l := by
  unfold jsTrim
  rw [ltrim_rtrim_comm l, rtrim_idem (ltrim l)]

lemma jsTrim_idem (l : List Char) : jsTrim (jsTrim l) = jsTrim l := by
  unfold jsTrim
  rw [ltrim_rtrim_comm (ltrim l), ltrim_idem l, rtrim_idem (ltrim l)]

lemma mem_of_mem_rtrim (a : Char) (l : List Char) (h : a ∈ rtrim l) : a ∈ l := by
  unfold rtrim List.rdropWhile at h
  rw [List.mem_reverse] at h
  have := List.Sublist.mem h (List.dropWhile_sublist jsWS)
  rwa [List.mem_reverse] at this

lemma mem_of_mem_jsTrim (a : Char) (l : List Char) (h : a ∈ jsTrim l) : a ∈ l := by
  unfold jsTrim at h
  have h2 := mem_of_mem_rtrim a (ltrim l) h
  unfold ltrim at h2
  exact List.Sublist.mem h2 (List.dropWhile_sublist jsWS)

/-! ## Lemmas about the label regex model -/

lemma grp2_closes (sym tl : List Char) (hs : ∀ c ∈ sym, jsDot c = true ∧ c ≠ ')') :
    grp2 (sym ++ ')' :: tl) = some sym := by
  induction sym with
  | nil => simp [grp2]
  | cons c cs ih =>
    have hc := hs c (List.mem_cons_self c cs)
    rw [List.cons_append]
    simp [grp2, hc.1, hc.2, ih (fun x hx => hs x (List.mem_cons_of_mem c hx))]

lemma afterG1_all_ws (nm X : List Char) (h : ∀ x ∈ nm, jsWS x = true) :
    afterG1 (nm ++ ' ' :: '(' :: X) = grp2 X := by
  unfold afterG1
  rw [List.dropWhile_append, List.dropWhile_eq_nil_iff.mpr h]
  simp only [List.isEmpty_nil, if_true]
  rw [List.dropWhile_cons_of_pos (by decide), List.dropWhile_cons_of_neg (by decide)]
  rfl

lemma afterG1_blocked (nm X : List Char) (h1 : ¬ ∀ x ∈ nm, jsWS x = true)
    (h2 : ∀ x ∈ nm, ¬ x = '(') : afterG1 (nm ++ X) = none := by
  obtain ⟨c, t, hct⟩ : ∃ c t, nm.dropWhile jsWS = c :: t := by
    rcases hd : nm.dropWhile jsWS with _ | ⟨c, t⟩
    · exact absurd (List.dropWhile_eq_nil_iff.mp hd) h1
    · exact ⟨c, t, rfl⟩
  have hcmem : c ∈ nm :=
    List.Sublist.mem (hct ▸ List.mem_cons_self c t) (List.dropWhile_sublist jsWS)
  unfold afterG1
  rw [List.dropWhile_append, hct]
  simp [h2 c hcmem]

lemma tryAt_shape (sym : List Char) (hsym : ∀ c ∈ sym, jsDot c = true ∧ c ≠ ')') :
    ∀ (nm acc : List Char), (∀ c ∈ nm, jsDot c = true ∧ c ≠ '(') →
      tryAt acc (nm ++ ' ' :: '(' :: (sym ++ [')'])) =
        some (acc.reverse ++ rtrim nm, sym) := by
  intro nm
  induction nm with
  | nil =>
    intro acc _
    have hA : afterG1 (' ' :: '(' :: (sym ++ [')'])) = some sym := by
      have h := afterG1_all_ws [] (sym ++ [')']) (by simp)
      rw [List.nil_append] at h
      rw [h]
      exact grp2_closes sym [] hsym
    rw [List.nil_append, tryAt, hA]
    show some (acc.reverse, sym) = some (acc.reverse ++ rtrim [], sym)
    simp [rtrim, List.rdropWhile]
  | cons c nm' ih =>
    intro acc hnm
    by_cases hall : ∀ x ∈ c :: nm', jsWS x = true
    · have hA : afterG1 (c :: (nm' ++ ' ' :: '(' :: (sym ++ [')']))) = some sym := by
        have h := afterG1_all_ws (c :: nm') (sym ++ [')']) hall
        rw [List.cons_append] at h
        rw [h]
        exact grp2_closes sym [] hsym
      rw [List.cons_append, tryAt, hA, rtrim_eq_nil_of_all (c :: nm') hall]
      simp
    · have hA : afterG1 (c :: (nm' ++ ' ' :: '(' :: (sym ++ [')']))) = none := by
        have h := afterG1_blocked (c :: nm') (' ' :: '(' :: (sym ++ [')'])) hall
          (fun x hx => (hnm x hx).2)
        rw [List.cons_append] at h
        exact h
      rw [List.cons_append, tryAt, hA]
      show (if jsDot c = true then tryAt (c :: acc) (nm' ++ ' ' :: '(' :: (sym ++ [')']))
            else none) = _
      rw [if_pos (hnm c (List.mem_cons_self c nm')).1,
        ih (c :: acc) (fun x hx => hnm x (List.mem_cons_of_mem c hx)),
        rtrim_cons_eq c nm' hall]
      simp

lemma searchRegex_shape (nm sym : List Char)
    (hnm : ∀ c ∈ nm, jsDot c = true ∧ c ≠ '(')
    (hsym : ∀ c ∈ sym, jsDot c = true ∧ c ≠ ')') :
    searchRegex (nm ++ ' ' :: '(' :: (sym ++ [')'])) = some (rtrim nm, sym) := by
  have ht := tryAt_shape sym hsym nm [] hnm
  rw [List.reverse_nil, List.nil_append] at ht
  cases nm with
  | nil =>
    rw [List.nil_append] at ht ⊢
    rw [searchRegex, ht]
  | cons c nm' =>
    rw [List.cons_append] at ht ⊢
    rw [searchRegex, ht]


/-! ## Convenience restatements -/

lemma jsSplit_ne_nil (sep l : List Char) : jsSplit sep l ≠ [] :=
  jsSplitGo_ne_nil sep 0 l

lemma containsSeq_iff_two_le_split (sep : List Char) (hs : sep ≠ []) (l : List Char) :
    containsSeq sep l = true ↔ 2 ≤ (jsSplit sep l).length :=
  containsSeq_iff_two_le sep hs l

lemma jsSplit_singleton_length_split (ch : Char) (l : List Char) :
    (jsSplit [ch] l).length = l.count ch + 1 :=
  jsSplitGo_singleton_length ch l

/-! ## Claims -/

/-- Claim C1, counterexample: the string "5 in 10" contains " in 1" but is
not followed by a space-separated component list (no " in 1 " occurrence),
and on it the parser does not return a result: the source destructures a
one-element split, so rest is undefined and undefined.replace throws a
TypeError, modeled as none. -/
theorem C1_throws_on_bare_in1 :
    jsIncludes "5 in 10" " in 1" = true ∧ formatGasType "5 in 10" = none := by
  exact ⟨by decide, by decide⟩

/-- Claim C1, amended: the label parser returns a displayName and
components for every string except exactly those that contain " in 1"
without containing " in 1 "; on those it throws. -/
theorem C1_parser_totality (s : String) :
    (formatGasType s).isSome = true ↔
      (jsIncludes s " in 1" = true → jsIncludes s " in 1 " = true) := by
  by_cases hinc : jsIncludes s " in 1" = true
  · unfold formatGasType
    rw [if_pos hinc]
    rcases hsplit : jsSplit (" in 1 ".data) s.data with _ | ⟨a, rest2⟩
    · exact absurd hsplit (jsSplit_ne_nil (" in 1 ".data) s.data)
    · rcases rest2 with _ | ⟨b, t⟩
      · have hn2 : ¬ (jsIncludes s " in 1 " = true) := by
          intro hc
          have h2 := (containsSeq_iff_two_le_split (" in 1 ".data) (by decide) s.data).mp hc
          rw [hsplit] at h2
          simp at h2
        simp [hinc, hn2]
      · have hy : jsIncludes s " in 1 " = true := by
          apply (containsSeq_iff_two_le_split (" in 1 ".data) (by decide) s.data).mpr
          rw [hsplit]
          simp
        simp [hinc, hy]
  · unfold formatGasType
    rw [if_neg hinc]
    rcases hm : searchRegex s.data with _ | ⟨g1, g2⟩ <;> simp [hinc]

/-- Claim C3: the catalog has exactly 10 records, whose raw labels and
timing and flow constants match the table of the spec exactly, and each
record carries the displayName and components of the parser applied to
its raw label. -/
theorem C3_catalog_table :
    cylinderData.length = 10 ∧
    cylinderData.map (fun r => (r.gasType, r.bumpTimeMin, r.calTimeMin, r.flowRate)) =
      [ ("3 in 1 (O2,LEL,CO)", 0.5, 2, 0.5),
        ("3 in 1 (O2,LEL,H2S)", 0.5, 2, 0.5),
        ("4 in 1 (O2,LEL,CO,H2S)", 0.4, 1.5, 0.5),
        ("4 in 1 (O2,LEL,CO,CO2)", 0.5, 2.15, 0.5),
        ("5 in 1 (O2,LEL,CO,H2S,CO2)", 0.5, 2.15, 0.5),
        ("5 in 1 (O2,LEL,CO,H2S,SO2)", 0.75, 2.5, 0.5),
        ("Ammonia (NH3)", 1, 3, 0.5),
        ("Carbon Dioxide (CO2)", 0.5, 1.5, 0.5),
        ("Carbon Monoxide (CO)", 0.4, 1.5, 0.5),
        ("Chlorine (Cl2)", 3, 6, 0.5) ] ∧
    cylinderData.map (fun r => some (GasFormat.mk r.displayName r.components)) =
      cylinderData.map (fun r => formatGasType r.gasType) :=
  ⟨rfl, rfl, rfl⟩

/-- Claim C4: calculateUsage validates in the fixed fail-fast order
missing field, then unknown gas type, then invalid number, and otherwise
returns the numeric result. -/
theorem C4_validation_order (g t c i : String) :
    ((g = "" ∨ t = "" ∨ c = "" ∨ i = "") →
      calculateUsage g t c i = .missingField) ∧
    (¬(g = "" ∨ t = "" ∨ c = "" ∨ i = "") →
      (∀ r ∈ cylinderData, r.gasType ≠ g) →
      calculateUsage g t c i = .unknownGasType) ∧
    (∀ cyl : CylinderData, ¬(g = "" ∨ t = "" ∨ c = "" ∨ i = "") →
      cylinderData.find? (fun r => r.gasType == g) = some cyl →
      (jsParseInt t = none ∨ jsParseInt c = none ∨ jsParseInt i = none) →
      calculateUsage g t c i = .invalidNumber) ∧
    (∀ (cyl : CylinderData) (tv cv iv : ℤ),
      ¬(g = "" ∨ t = "" ∨ c = "" ∨ i = "") →
      cylinderData.find? (fun r => r.gasType == g) = some cyl →
      jsParseInt t = some tv → jsParseInt c = some cv → jsParseInt i = some iv →
      calculateUsage g t c i =
        .ok (roundTwo ((cyl.bumpTimeMin * tv * cyl.flowRate +
                        cyl.calTimeMin * cv * cyl.flowRate) * iv))) := by
  refine ⟨calculateUsage_missing g t c i, ?_, ?_, ?_⟩
  · intro hne hno
    exact calculateUsage_unknown g t c i hne
      (List.find?_eq_none.mpr (fun x hx => by simp [hno x hx]))
  · intro cyl hne hf hp
    exact calculateUsage_invalid g t c i cyl hne hf hp
  · intro cyl tv cv iv hne hf ht hc hi
    exact calculateUsage_ok g t c i cyl tv cv iv hne hf ht hc hi

/-- Claim C4, witness: one concrete invocation per validation branch
(Scenario B of the spec for the success branch). -/
theorem C4_validation_order_witness :
    calculateUsage "" "1" "1" "1" = CalcResult.missingField ∧
    calculateUsage "Helium (He)" "1" "1" "1" = CalcResult.unknownGasType ∧
    calculateUsage "Chlorine (Cl2)" "x" "1" "1" = CalcResult.invalidNumber ∧
    calculateUsage "Chlorine (Cl2)" "0" "1" "1" = CalcResult.ok 3 := by
  refine ⟨(C4_validation_order "" "1" "1" "1").1 (Or.inl rfl), ?_, ?_, ?_⟩
  · exact (C4_validation_order "Helium (He)" "1" "1" "1").2.1 (by simp)
      (by rw [cylinderData_eval]; intro r hr; fin_cases hr <;> decide)
  · exact (C4_validation_order "Chlorine (Cl2)" "x" "1" "1").2.2.1
      ⟨"Chlorine (Cl2)", "Chlorine", ["Cl2"], 3, 6, 0.5⟩ (by simp) rfl (Or.inl rfl)
  · have h := (C4_validation_order "Chlorine (Cl2)" "0" "1" "1").2.2.2
      ⟨"Chlorine (Cl2)", "Chlorine", ["Cl2"], 3, 6, 0.5⟩ 0 1 1 (by simp) rfl rfl rfl rfl
    rw [h]
    have h2 : roundTwo (((3 : ℚ) * ((0 : ℤ) : ℚ) * 0.5 +
        (6 : ℚ) * ((1 : ℤ) : ℚ) * 0.5) * ((1 : ℤ) : ℚ)) = ((300 : ℤ) : ℚ) / 100 :=
      roundTwo_eval _ 300 (by norm_num) (by norm_num) (by norm_num)
    simp only [h2]
    norm_num

/-- Claim C5, counterexample: the label "3 in 1" contains the substring
" in 1", yet the parser does not split it and return a displayName; the
split on " in 1 " yields a single part, rest is undefined, and the source
throws, modeled as none. -/
theorem C5_claim_false_on_bare_in1 :
    jsIncludes "3 in 1" " in 1" = true ∧ formatGasType "3 in 1" = none := by
  exact ⟨by decide, by decide⟩

/-- Claim C5, amended: for every label in which " in 1 " occurs, with
count the segment before the first occurrence and rest the segment between
the first and second occurrences (the remainder when there is only one),
the parser returns displayName count followed by "-in-1 Gas Mixture" and
components obtained from rest by stripping parentheses, splitting on
commas and trimming; the components list has comma count plus one entries,
each trimmed and parenthesis-free. -/
theorem C5_in1_components (s : String) (count rest : List Char)
    (others : List (List Char))
    (h : jsSplit (" in 1 ".data) s.data = count :: rest :: others) :
    formatGasType s = some (GasFormat.mk (String.mk count ++ "-in-1 Gas Mixture")
        ((jsSplit [','] (rest.filter (fun c => !(c == '(' || c == ')')))).map
          (fun p => String.mk (jsTrim p)))) ∧
    ((jsSplit [','] (rest.filter (fun c => !(c == '(' || c == ')')))).map
        (fun p => String.mk (jsTrim p))).length = rest.count ',' + 1 ∧
    ∀ x ∈ (jsSplit [','] (rest.filter (fun c => !(c == '(' || c == ')')))).map
        (fun p => String.mk (jsTrim p)),
      jsTrimStr x = x ∧ ∀ ch ∈ x.data, ch ≠ '(' ∧ ch ≠ ')' := by
  have hlen : 2 ≤ (jsSplit (" in 1 ".data) s.data).length := by
    rw [h]; simp
  have hinc1 : containsSeq (" in 1 ".data) s.data = true :=
    (containsSeq_iff_two_le_split (" in 1 ".data) (by decide) s.data).mpr hlen
  have hinc : jsIncludes s " in 1" = true := by
    have hd : (" in 1 " : String).data = (" in 1" : String).data ++ [' '] := by decide
    rw [hd] at hinc1
    exact containsSeq_of_append (" in 1".data) [' '] s.data hinc1
  refine ⟨?_, ?_, ?_⟩
  · unfold formatGasType
    rw [if_pos hinc, h]
  · rw [List.length_map, jsSplit_singleton_length_split,
      count_filter_of_pos _ ',' (by decide) rest]
  · intro x hx
    obtain ⟨p, hp, hxp⟩ := List.mem_map.mp hx
    subst hxp
    constructor
    · show jsTrimStr (String.mk (jsTrim p)) = String.mk (jsTrim p)
      unfold jsTrimStr
      rw [show (String.mk (jsTrim p)).data = jsTrim p from rfl, jsTrim_idem]
    · intro ch hch
      rw [show (String.mk (jsTrim p)).data = jsTrim p from rfl] at hch
      have h1 := mem_of_mem_jsTrim ch p hch
      have h2 := mem_of_mem_jsSplitGo [','] _ 0 p ch hp h1
      have h3 := List.of_mem_filter h2
      simp only [Bool.not_eq_eq_eq_not, Bool.not_true, Bool.or_eq_false_iff,
        beq_eq_false_iff_ne] at h3
      exact h3

/-- Claim C5, witness: the first catalog label, 3 in 1 (O2,LEL,CO). -/
theorem C5_in1_components_witness :
    formatGasType "3 in 1 (O2,LEL,CO)" =
      some (GasFormat.mk "3-in-1 Gas Mixture" ["O2", "LEL", "CO"]) ∧
    (["O2", "LEL", "CO"] : List String).length =
      ("(O2,LEL,CO)" : String).data.count ',' + 1 := by
  have h := C5_in1_components "3 in 1 (O2,LEL,CO)" ("3" : String).data
    ("(O2,LEL,CO)" : String).data [] (by decide)
  constructor
  · rw [h.1]; decide
  · decide

/-- Claim C6: a label of shape name, space, parenthesized symbol, where
the name has no open parenthesis, the symbol no close parenthesis,
neither has a line terminator, and the label does not contain " in 1",
parses to the trimmed name and the one-element list of the trimmed
symbol. -/
theorem C6_name_symbol_parse (name sym : String)
    (hname : ∀ c ∈ name.data, jsDot c = true ∧ c ≠ '(')
    (hsym : ∀ c ∈ sym.data, jsDot c = true ∧ c ≠ ')')
    (hni : jsIncludes (name ++ " (" ++ sym ++ ")") " in 1" = false) :
    formatGasType (name ++ " (" ++ sym ++ ")") =
      some (GasFormat.mk (jsTrimStr name) [jsTrimStr sym]) := by
  have hdata : (name ++ " (" ++ sym ++ ")").data =
      name.data ++ ' ' :: '(' :: (sym.data ++ [')']) := by
    rw [String.data_append, String.data_append, String.data_append,
      show (" (" : String).data = [' ', '('] from rfl,
      show (")" : String).data = [')'] from rfl]
    simp
  unfold formatGasType
  rw [hni, if_neg (by simp), hdata,
    searchRegex_shape name.data sym.data hname hsym]
  show some (GasFormat.mk (String.mk (jsTrim (rtrim name.data)))
      [String.mk (jsTrim sym.data)]) = _
  rw [jsTrim_rtrim]
  rfl

/-- Claim C6, witness: the catalog label Ammonia (NH3). -/
theorem C6_name_symbol_parse_witness :
    formatGasType "Ammonia (NH3)" = some (GasFormat.mk "Ammonia" ["NH3"]) := by
  have h := C6_name_symbol_parse "Ammonia" "NH3" (by decide) (by decide) (by decide)
  rw [show ("Ammonia" ++ " (" ++ "NH3" ++ ")" : String) = "Ammonia (NH3)" from rfl] at h
  rw [h]
  decide

/-- Claim C7, counterexample: an invocation that returns the missing-field
error leaves a prior numeric result in place (the handler never calls
setResult on an error path), so the prior result is not replaced. -/
theorem C7_stale_result_after_error :
    calculateUsage "" "1" "1" "1" = CalcResult.missingField ∧
    (runCalculate "" "1" "1" "1" { result := some 10, error := "" }).result =
      some 10 := by
  exact ⟨calculateUsage_missing "" "1" "1" "1" (Or.inl rfl), rfl⟩

/-- Claim C7, amended: each invocation first clears the error; a
successful invocation replaces the result and leaves the error empty,
while an erroring invocation sets the corresponding message and leaves
the prior numeric result unchanged. -/
theorem C7_state_transition (g t c i : String) (s : AppState) :
    runCalculate g t c i s =
      { result := match calculateUsage g t c i with
                  | .ok r => some r
                  | _ => s.result,
        error := errorMessage (calculateUsage g t c i) } := by
  by_cases hne : (g = "" ∨ t = "" ∨ c = "" ∨ i = "")
  · rw [calculateUsage_missing g t c i hne]
    unfold runCalculate
    rw [if_pos hne]
    rfl
  · rcases hf : cylinderData.find? (fun cd => cd.gasType == g) with _ | cyl
    · rw [calculateUsage_unknown g t c i hne hf]
      unfold runCalculate
      rw [if_neg hne, hf]
      rfl
    · rcases ht : jsParseInt t with _ | tv <;> rcases hc : jsParseInt c with _ | cv <;>
        rcases hi : jsParseInt i with _ | iv <;>
        first
        | (rw [calculateUsage_invalid g t c i cyl hne hf (by simp [ht, hc, hi])]
           unfold runCalculate
           rw [if_neg hne, hf, ht, hc, hi]
           rfl)
        | (rw [calculateUsage_ok g t c i cyl tv cv iv hne hf ht hc hi]
           unfold runCalculate
           rw [if_neg hne, hf, ht, hc, hi]
           rfl)

/-- Claim C9: the catalog records have pairwise distinct gasType keys,
strictly positive bumpTimeMin, calTimeMin and flowRate, and a non-empty
components list. -/
theorem C9_catalog_invariant :
    (cylinderData.map (fun r => r.gasType)).Nodup ∧
    ∀ r ∈ cylinderData, 0 < r.bumpTimeMin ∧ 0 < r.calTimeMin ∧
      0 < r.flowRate ∧ r.components ≠ [] := by
  constructor
  · rw [cylinderData_eval]; decide
  · rw [cylinderData_eval]
    intro r hr
    fin_cases hr <;> exact ⟨by norm_num, by norm_num, by norm_num, by simp⟩

/-- Claim C9, witness: the first catalog record. -/
theorem C9_catalog_invariant_witness :
    (0 : ℚ) < 0.5 ∧ (0 : ℚ) < 2 ∧ (0 : ℚ) < 0.5 ∧
      (["O2", "LEL", "CO"] : List String) ≠ [] := by
  have h := C9_catalog_invariant.2
    ⟨"3 in 1 (O2,LEL,CO)", "3-in-1 Gas Mixture", ["O2", "LEL", "CO"], 0.5, 2, 0.5⟩
    (by rw [cylinderData_eval]; exact List.mem_cons_self _ _)
  exact ⟨h.1, h.2.1, h.2.2.1, h.2.2.2⟩

/-- Claim C10: once the fields are non-empty and the gas type is found,
calculateUsage reports the invalid-number error exactly when parseInt of
some input is NaN; strings with a parseable leading integer prefix such
as "3.9" and "12abc" are accepted as their truncated values 3 and 12. -/
theorem C10_parseInt_acceptance :
    (∀ (g t c i : String) (cyl : CylinderData),
      ¬(g = "" ∨ t = "" ∨ c = "" ∨ i = "") →
      cylinderData.find? (fun r => r.gasType == g) = some cyl →
      (calculateUsage g t c i = .invalidNumber ↔
        (jsParseInt t = none ∨ jsParseInt c = none ∨ jsParseInt i = none))) ∧
    jsParseInt "3.9" = some 3 ∧ jsParseInt "12abc" = some 12 ∧
    calculateUsage "Carbon Monoxide (CO)" "3.9" "12abc" "2" = CalcResult.ok 19.2 := by
  refine ⟨?_, by decide, by decide, ?_⟩
  · intro g t c i cyl hne hf
    constructor
    · intro hinv
      by_contra hno
      push_neg at hno
      obtain ⟨h1, h2, h3⟩ := hno
      obtain ⟨tv, ht⟩ := Option.ne_none_iff_exists'.mp h1
      obtain ⟨cv, hc⟩ := Option.ne_none_iff_exists'.mp h2
      obtain ⟨iv, hi⟩ := Option.ne_none_iff_exists'.mp h3
      have hok := calculateUsage_ok g t c i cyl tv cv iv hne hf ht hc hi
      rw [hok] at hinv
      exact absurd hinv (by simp)
    · exact calculateUsage_invalid g t c i cyl hne hf
  · have h := calculateUsage_ok "Carbon Monoxide (CO)" "3.9" "12abc" "2"
      ⟨"Carbon Monoxide (CO)", "Carbon Monoxide", ["CO"], 0.4, 1.5, 0.5⟩ 3 12 2
      (by simp) rfl rfl rfl rfl
    rw [h]
    have h2 : roundTwo (((0.4 : ℚ) * ((3 : ℤ) : ℚ) * 0.5 +
        (1.5 : ℚ) * ((12 : ℤ) : ℚ) * 0.5) * ((2 : ℤ) : ℚ)) = ((1920 : ℤ) : ℚ) / 100 :=
      roundTwo_eval _ 1920 (by norm_num) (by norm_num) (by norm_num)
    simp only [h2]
    norm_num

/-- Claim C10, witness: Scenario D of the spec, a non-numeric tests
input yields the invalid-number error. -/
theorem C10_parseInt_acceptance_witness :
    calculateUsage "Ammonia (NH3)" "abc" "1" "1" = CalcResult.invalidNumber :=
  (C10_parseInt_acceptance.1 "Ammonia (NH3)" "abc" "1" "1"
    ⟨"Ammonia (NH3)", "Ammonia", ["NH3"], 1, 3, 0.5⟩ (by simp) rfl).mpr (Or.inl rfl)
